import Mathlib

/-!
Shallow embedding of the execution core of the go-ethereum derived repository:
the bytecode interpreter (`core/vm/interpreter.go`), the state-transition
protocol (`core/state_transition.go`) and the block processor
(`core/state_processor.go`).  Machine integers (`uint64`) are modelled as `Nat`
with explicit bit-length guards exactly where the source checks them; `big.Int`
values are modelled as `Int` (or `Nat` where the source value is provably
non-negative); fallible code returns an `Option` error alongside explicitly
threaded state.
-/

namespace EthCore

/-- Errors produced inside the virtual machine (package `vm`). -/
inductive VMError where
  | errWriteProtection
  | ErrOutOfGas
  | errGasUintOverflow
  | errExecutionReverted
  | ErrInsufficientBalance
  | ErrDepth
  | invalidOpcode (op : Nat)
  | stackValidation (code : Nat)
  deriving DecidableEq, Repr

/-- Errors produced by the state transition and block processor (package `core`).
VM errors are embedded through the `vm` constructor. -/
inductive CoreError where
  | ErrNonceTooHigh
  | ErrNonceTooLow
  | errInsufficientBalanceForGas
  | ErrGasLimitReached
  | vm (e : VMError)
  deriving DecidableEq, Repr

/-- Bit length of a `big.Int`/`Nat`: `0` for `0`, otherwise `⌊log2 n⌋ + 1`.
Structural fuel recursion so that closed terms reduce in the kernel. -/
def bitLenAux : Nat → Nat → Nat
  | 0, _ => 0
  | fuel + 1, n => if n = 0 then 0 else bitLenAux fuel (n / 2) + 1

/-- Model of Go `big.Int.BitLen` for non-negative values. -/
def bigBitLen (n : Nat) : Nat := bitLenAux n n

/-- Model of Go `big.Int.Uint64` (low 64 bits; the Go result is undefined
outside `[0, 2^64)`, this model fixes the customary two's-complement reading). -/
def intUint64 (i : Int) : Nat := (i % 2 ^ 64).toNat

/-- One account of the world state: balance, nonce and contract code. -/
structure Account where
  balance : Int
  nonce : Nat
  code : List Nat
  deriving DecidableEq, Repr

def emptyAccount : Account := { balance := 0, nonce := 0, code := [] }

/-- The world-state view (the `vm.StateDB` collaborator): a mapping from
addresses to accounts, plus the refund counter accumulated during execution. -/
structure StateDB where
  accounts : Nat → Option Account
  refund : Nat

/-- Account at `a`, defaulting to the empty account (as the Go state object
getters do for absent accounts). -/
def StateDB.getOr (s : StateDB) (a : Nat) : Account := (s.accounts a).getD emptyAccount

def StateDB.Exist (s : StateDB) (a : Nat) : Bool := (s.accounts a).isSome

/-- `CreateAccount`: a fresh state object; an existing balance is carried over,
nonce and code are reset. -/
def StateDB.CreateAccount (s : StateDB) (a : Nat) : StateDB :=
  { s with accounts := fun x =>
      if x = a then some { emptyAccount with balance := (s.getOr a).balance }
      else s.accounts x }

/-- Update (creating if absent, as `GetOrNewStateObject` does). -/
def StateDB.upd (s : StateDB) (a : Nat) (f : Account → Account) : StateDB :=
  { s with accounts := fun x => if x = a then some (f (s.getOr a)) else s.accounts x }

def StateDB.GetBalance (s : StateDB) (a : Nat) : Int := (s.getOr a).balance

def StateDB.GetNonce (s : StateDB) (a : Nat) : Nat := (s.getOr a).nonce

def StateDB.GetCode (s : StateDB) (a : Nat) : List Nat := (s.getOr a).code

def StateDB.AddBalance (s : StateDB) (a : Nat) (v : Int) : StateDB :=
  s.upd a (fun acc => { acc with balance := acc.balance + v })

def StateDB.SubBalance (s : StateDB) (a : Nat) (v : Int) : StateDB :=
  s.upd a (fun acc => { acc with balance := acc.balance - v })

def StateDB.SetNonce (s : StateDB) (a : Nat) (n : Nat) : StateDB :=
  s.upd a (fun acc => { acc with nonce := n })

def StateDB.SetCode (s : StateDB) (a : Nat) (c : List Nat) : StateDB :=
  s.upd a (fun acc => { acc with code := c })

def StateDB.GetRefund (s : StateDB) : Nat := s.refund

/-- Chain rule predicates relevant to the interpreter (`params.Rules`). -/
structure ChainRules where
  IsHomestead : Bool
  IsByzantium : Bool
  deriving DecidableEq, Repr

/-- Gas price table selected per block height (`params.GasTable`). -/
structure GasTable where
  ExtcodeSize : Nat
  ExtcodeCopy : Nat
  Balance : Nat
  SLoad : Nat
  Calls : Nat
  Suicide : Nat
  ExpByte : Nat
  CreateBySuicide : Nat
  deriving DecidableEq, Repr

/-- The bounded value stack of one call frame.  The top of the stack is the
head of the list, so the source's `stack.Back(n)` (the n-th item from the top,
`st.data[st.len()-n-1]` in Go) is `data.getD n 0`. -/
structure Stack where
  data : List Nat
  deriving DecidableEq, Repr

def Stack.Back (s : Stack) (n : Nat) : Nat := s.data.getD n 0

/-- The linear byte memory of one call frame. -/
structure Memory where
  store : List Nat
  deriving DecidableEq, Repr

/-- `Memory.Resize`: grow (never shrink) to `size` bytes, zero filled. -/
def Memory.Resize (m : Memory) (size : Nat) : Memory :=
  if m.store.length < size then
    { store := m.store ++ List.replicate (size - m.store.length) 0 }
  else m

/-- The contract object of one frame: code, input and remaining frame gas. -/
structure Contract where
  CodeAddr : Nat
  Code : List Nat
  CodeHash : Nat
  Input : List Nat
  Gas : Nat
  deriving DecidableEq, Repr

/-- `contract.GetOp(pc)`: byte at the program counter, implicit `STOP` (0)
past the end of code. -/
def Contract.GetOp (c : Contract) (pc : Nat) : Nat := c.Code.getD pc 0

/-- `contract.UseGas`: deduct if affordable, report whether it was. -/
def Contract.UseGas (c : Contract) (amount : Nat) : Bool × Contract :=
  if c.Gas < amount then (false, c)
  else (true, { c with Gas := c.Gas - amount })

/-- The piece of `vm.EVM` state the interpreter reads and writes: call depth,
the cooperative abort flag, the chain rules and the world state. -/
structure EVMState where
  depth : Nat
  abort : Bool
  chainRules : ChainRules
  state : StateDB

/-- Result of one opcode executor: the updated program counter, environment,
contract, memory and stack, the produced bytes and an optional error. -/
structure ExecResult where
  pc : Nat
  evm : EVMState
  contract : Contract
  mem : Memory
  stack : Stack
  res : Option (List Nat)
  err : Option VMError

/-- One entry of the 256-entry opcode dispatch table (`vm.operation`). -/
structure Operation where
  execute : Nat → EVMState → Contract → Memory → Stack → ExecResult
  gasCost : GasTable → EVMState → Contract → Stack → Memory → Nat → Except VMError Nat
  validateStack : Stack → Option VMError
  memorySize : Option (Stack → Nat)
  halts : Bool
  jumps : Bool
  writes : Bool
  valid : Bool
  reverts : Bool
  returns : Bool

/-- Interpreter configuration (`vm.Config`); the tracer side channel is not
modelled (it must not affect the execution outcome). -/
structure Config where
  Debug : Bool
  NoRecursion : Bool
  DisableGasMetering : Bool
  EnablePreimageRecording : Bool
  JumpTable : Nat → Operation

/-- The interpreter object (`vm.Interpreter`). -/
structure Interpreter where
  evm : EVMState
  cfg : Config
  gasTable : GasTable
  readOnly : Bool
  returnData : Option (List Nat)

/-- Opcode constants used by the embedded code. -/
def STOP : Nat := 0x00

def CALL : Nat := 0xF1

/-- `Interpreter.enforceRestrictions`: under the Byzantium rules, a read-only
frame must not perform a state-modifying operation, nor a CALL whose value
operand (third stack item) is non-zero. -/
def Interpreter.enforceRestrictions (inp : Interpreter) (op : Nat)
    (operation : Operation) (stack : Stack) : Option VMError :=
  if inp.evm.chainRules.IsByzantium then
    if inp.readOnly then
      if operation.writes || (op == CALL && 0 < bigBitLen (stack.Back 2)) then
        some VMError.errWriteProtection
      else none
    else none
  else none

/-- `toWordSize`: number of 32-byte words needed for `size` bytes, with the
source's `uint64` overflow guard. -/
def toWordSize (size : Nat) : Nat :=
  if size > 2 ^ 64 - 1 - 31 then (2 ^ 64 - 1) / 32 + 1
  else (size + 31) / 32

/-- Outcome of one iteration of the interpreter's main loop: either the frame
is finished (with its final interpreter, contract, return bytes and error), or
execution continues at a new program counter. -/
inductive StepResult where
  | done (inp : Interpreter) (contract : Contract)
      (ret : Option (List Nat)) (err : Option VMError)
  | next (inp : Interpreter) (contract : Contract) (pc : Nat)
      (mem : Memory) (stack : Stack)

/-- One iteration of `Interpreter.Run`'s main loop: fetch, table lookup,
validity and stack validation, write-restriction enforcement, memory sizing,
gas metering, memory expansion, executor dispatch and outcome analysis, in the
source's order. -/
def step (inp : Interpreter) (contract : Contract) (pc : Nat)
    (mem : Memory) (stack : Stack) : StepResult :=
  let op := contract.GetOp pc
  let operation := inp.cfg.JumpTable op
  if !operation.valid then
    StepResult.done inp contract none (some (VMError.invalidOpcode op))
  else
    match operation.validateStack stack with
    | some e => StepResult.done inp contract none (some e)
    | none =>
      match inp.enforceRestrictions op operation stack with
      | some e => StepResult.done inp contract none (some e)
      | none =>
        let memRes : Except VMError Nat :=
          match operation.memorySize with
          | none => Except.ok 0
          | some f =>
            let memSize := f stack
            if 64 < bigBitLen memSize then Except.error VMError.errGasUintOverflow
            else if 2 ^ 64 ≤ toWordSize memSize * 32 then
              Except.error VMError.errGasUintOverflow
            else Except.ok (toWordSize memSize * 32)
        match memRes with
        | Except.error e => StepResult.done inp contract none (some e)
        | Except.ok memorySize =>
          let gasRes : Except VMError Contract :=
            if inp.cfg.DisableGasMetering then Except.ok contract
            else
              match operation.gasCost inp.gasTable inp.evm contract stack mem memorySize with
              | Except.error _ => Except.error VMError.ErrOutOfGas
              | Except.ok cost =>
                match contract.UseGas cost with
                | (false, _) => Except.error VMError.ErrOutOfGas
                | (true, c) => Except.ok c
          match gasRes with
          | Except.error e => StepResult.done inp contract none (some e)
          | Except.ok contract1 =>
            let mem1 := if 0 < memorySize then mem.Resize memorySize else mem
            let out := operation.execute pc inp.evm contract1 mem1 stack
            let inp1 : Interpreter :=
              { inp with
                evm := out.evm
                returnData := if operation.returns then out.res else inp.returnData }
            match out.err with
            | some e => StepResult.done inp1 out.contract none (some e)
            | none =>
              if operation.reverts then
                StepResult.done inp1 out.contract out.res (some VMError.errExecutionReverted)
              else if operation.halts then
                StepResult.done inp1 out.contract out.res none
              else if !operation.jumps then
                StepResult.next inp1 out.contract (out.pc + 1) out.mem out.stack
              else
                StepResult.next inp1 out.contract out.pc out.mem out.stack

/-- The interpreter main loop, fuelled: `fuel = 0` stands for an execution cut
off before reaching a terminal condition; an abort-flag check guards every
iteration as in the source. -/
def runLoop : Nat → Interpreter → Contract → Nat → Memory → Stack →
    Interpreter × Contract × Option (List Nat) × Option VMError
  | 0, inp, contract, _, _, _ => (inp, contract, none, none)
  | fuel + 1, inp, contract, pc, mem, stack =>
    if inp.evm.abort then (inp, contract, none, none)
    else
      match step inp contract pc mem stack with
      | StepResult.done i c ret err => (i, c, ret, err)
      | StepResult.next i c pc' m' s' => runLoop fuel i c pc' m' s'

/-- `Interpreter.Run`: increment the call depth (restored on return), clear the
previous call's return data, return immediately on empty code, otherwise run
the main loop over a fresh stack and memory. -/
def Interpreter.Run (fuel : Nat) (inp0 : Interpreter) (contract : Contract)
    (input : List Nat) :
    Interpreter × Contract × Option (List Nat) × Option VMError :=
  let inp : Interpreter :=
    { inp0 with evm := { inp0.evm with depth := inp0.evm.depth + 1 }, returnData := none }
  if contract.Code.length = 0 then
    ({ inp with evm := { inp.evm with depth := inp.evm.depth - 1 } }, contract, none, none)
  else
    let contract := { contract with Input := input }
    let r := runLoop fuel inp contract 0 (Memory.mk []) (Stack.mk [])
    ({ r.1 with evm := { r.1.evm with depth := r.1.evm.depth - 1 } }, r.2.1, r.2.2.1, r.2.2.2)

/-! ## State transition (`core/state_transition.go`) -/

/-- Gas cost constants from `params/protocol_params.go`. -/
def TxGas : Nat := 21000

def TxGasContractCreation : Nat := 53000

def TxDataZeroGas : Nat := 4

def TxDataNonZeroGas : Nat := 68

/-- A message sent to a contract (the `core.Message` interface). -/
structure Message where
  From : Nat
  To : Option Nat
  GasPrice : Nat
  Gas : Nat
  Value : Nat
  Nonce : Nat
  CheckNonce : Bool
  Data : List Nat
  deriving DecidableEq, Repr

/-- The state-transition object (`core.StateTransition`); the block gas pool is
a plain counter, the world state is threaded explicitly. -/
structure StateTransition where
  gp : Nat
  msg : Message
  gas : Nat
  gasPrice : Nat
  initialGas : Nat
  value : Nat
  data : List Nat
  state : StateDB

/-- `GasPool.SubGas`: reserve gas from the block pool, rejecting underflow. -/
def GasPool.SubGas (gp : Nat) (amount : Nat) : Option Nat :=
  if gp < amount then none else some (gp - amount)

/-- `NewStateTransition`: the transition starts with zero frame gas and zero
initial gas, copying price, value and data from the message. -/
def NewStateTransition (msg : Message) (gp : Nat) (state : StateDB) : StateTransition :=
  { gp := gp
    msg := msg
    gas := 0
    gasPrice := msg.GasPrice
    initialGas := 0
    value := msg.Value
    data := msg.Data
    state := state }

/-- `IntrinsicGas`: base cost (creation under homestead pays the creation
price), plus per-byte data cost with zero and non-zero bytes priced apart. -/
def IntrinsicGas (data : List Nat) (contractCreation homestead : Bool) : Nat :=
  let igas := if contractCreation && homestead then TxGasContractCreation else TxGas
  if 0 < data.length then
    let nz := (data.filter (fun byt => byt ≠ 0)).length
    igas + nz * TxDataNonZeroGas + (data.length - nz) * TxDataZeroGas
  else igas

/-- `StateTransition.from`: the sender reference, creating the sender account
in the world state first when it does not exist. -/
def StateTransition.from (st : StateTransition) : Nat × StateTransition :=
  let f := st.msg.From
  if st.state.Exist f then (f, st)
  else (f, { st with state := st.state.CreateAccount f })

/-- `StateTransition.to`: the recipient reference (zero for contract creation),
creating the recipient account in the world state when it does not exist. -/
def StateTransition.to (st : StateTransition) : Nat × StateTransition :=
  match st.msg.To with
  | none => (0, st)
  | some toAddr =>
    if st.state.Exist toAddr then (toAddr, st)
    else (toAddr, { st with state := st.state.CreateAccount toAddr })

/-- `StateTransition.useGas`: deduct from the remaining frame gas, out-of-gas
when it does not suffice. -/
def StateTransition.useGas (st : StateTransition) (amount : Nat) :
    StateTransition × Option CoreError :=
  if st.gas < amount then (st, some (CoreError.vm VMError.ErrOutOfGas))
  else ({ st with gas := st.gas - amount }, none)

/-- `StateTransition.buyGas`: reject an unrepresentable gas limit, check the
sender's balance against `gasLimit × gasPrice`, reserve the limit from the
block pool, credit the frame gas, record the initial budget and debit the
sender. -/
def StateTransition.buyGas (st0 : StateTransition) : StateTransition × Option CoreError :=
  let mgas := st0.msg.Gas
  if 64 < bigBitLen mgas then (st0, some (CoreError.vm VMError.ErrOutOfGas))
  else
    let mgval : Int := (mgas : Int) * (st0.gasPrice : Int)
    let sender := (st0.from).1
    let st := (st0.from).2
    if st.state.GetBalance sender < mgval then
      (st, some CoreError.errInsufficientBalanceForGas)
    else
      match GasPool.SubGas st.gp mgas with
      | none => (st, some CoreError.ErrGasLimitReached)
      | some gp' =>
        let st := { st with gp := gp', gas := st.gas + mgas, initialGas := mgas }
        ({ st with state := st.state.SubBalance sender mgval }, none)

/-- `StateTransition.preCheck`: when nonce checking is requested the sender's
on-chain nonce must equal the message nonce exactly (below the message nonce is
"too high", above is "too low"), then gas is bought. -/
def StateTransition.preCheck (st0 : StateTransition) : StateTransition × Option CoreError :=
  let st := (st0.from).2
  if st.msg.CheckNonce then
    let nonce := st.state.GetNonce st.msg.From
    if nonce < st.msg.Nonce then (st, some CoreError.ErrNonceTooHigh)
    else if st.msg.Nonce < nonce then (st, some CoreError.ErrNonceTooLow)
    else st.buyGas
  else st.buyGas

/-- `StateTransition.gasUsed`: `initialGas − gas` as a `big.Int` difference. -/
def StateTransition.gasUsed (st : StateTransition) : Int :=
  (st.initialGas : Int) - (st.gas : Int)

/-- Result of the call path `evm.Call`: output bytes, leftover gas, VM error
and the world state it leaves behind. -/
structure CallResult where
  ret : Option (List Nat)
  leftOverGas : Nat
  vmerr : Option VMError
  state : StateDB

/-- Result of the creation path `evm.Create`: additionally the address of the
created contract. -/
structure CreateResult where
  ret : Option (List Nat)
  contractAddr : Nat
  leftOverGas : Nat
  vmerr : Option VMError
  state : StateDB

/-- Modelled from the spec: the Execution Context's dispatch interface.  The
bodies of `evm.Call` and `evm.Create` are not part of this repository slice
(`core/vm/evm.go` is absent); the state transition hands
`(sender, data, remainingGas, value)` to one of these two paths and receives
`(output, gasRemaining, vmError)` back, with the world state mutated by the
call (§4.2 step 4 of the spec). -/
structure EVMDispatch where
  Create : Nat → List Nat → Nat → Nat → StateDB → CreateResult
  Call : Nat → Nat → List Nat → Nat → Nat → StateDB → CallResult

/-- The call-or-create dispatch block of `TransitionDb`: creation hands the
data to the create path; a plain call first increments the sender's nonce,
resolves (and if needed creates) the recipient and hands off to the call
path. -/
def StateTransition.callOrCreate (d : EVMDispatch) (sender : Nat)
    (contractCreation : Bool) (st0 : StateTransition) :
    Option (List Nat) × StateTransition × Option VMError :=
  if contractCreation then
    let r := d.Create sender st0.data st0.gas st0.value st0.state
    (r.ret, { st0 with gas := r.leftOverGas, state := r.state }, r.vmerr)
  else
    let st1 := { st0 with state := st0.state.SetNonce sender (st0.state.GetNonce sender + 1) }
    let toAddr := (st1.to).1
    let st := (st1.to).2
    let r := d.Call sender toAddr st.data st.gas st.value st.state
    (r.ret, { st with gas := r.leftOverGas, state := r.state }, r.vmerr)

/-- `StateTransition.refundGas`: return the leftover gas to the sender at the
original price, add back the refund counter capped at half the gas used, pay
that refund to the sender at the original price, and release the remaining gas
to the block pool. -/
def StateTransition.refundGas (st0 : StateTransition) : StateTransition :=
  let sender := (st0.from).1
  let st := (st0.from).2
  let remaining : Int := (st.gas : Int) * (st.gasPrice : Int)
  let st := { st with state := st.state.AddBalance sender remaining }
  let uhalf : Int := st.gasUsed / 2
  let refund : Int := min uhalf (st.state.GetRefund : Int)
  let st := { st with gas := st.gas + intUint64 refund }
  let st := { st with state := st.state.AddBalance sender (refund * (st.gasPrice : Int)) }
  { st with gp := st.gp + st.gas }

/-- Result tuple of `TransitionDb`: returned bytes, pre-refund gas used
(`requiredGas`), post-refund gas used (`usedGas`), the failure flag, the
consensus error and the final transition object. -/
structure TDbResult where
  ret : Option (List Nat)
  requiredGas : Option Int
  usedGas : Option Int
  failed : Bool
  err : Option CoreError
  st : StateTransition

/-- `StateTransition.TransitionDb`: pre-check, intrinsic gas, call-or-create
dispatch, escalation of the insufficient-balance VM error only, refund and
coinbase payment, in the source's order.  `homestead` is the chain
configuration predicate at the current block, `coinbase` the beneficiary. -/
def StateTransition.TransitionDb (d : EVMDispatch) (homestead : Bool)
    (coinbase : Nat) (st0 : StateTransition) : TDbResult :=
  let pc := st0.preCheck
  match pc.2 with
  | some e => ⟨none, none, none, false, some e, pc.1⟩
  | none =>
    let sender := (pc.1.from).1
    let st1 := (pc.1.from).2
    let contractCreation := st1.msg.To.isNone
    let intrinsicGas := IntrinsicGas st1.data contractCreation homestead
    if 64 < bigBitLen intrinsicGas then
      ⟨none, none, none, false, some (CoreError.vm VMError.ErrOutOfGas), st1⟩
    else
      let ug := st1.useGas intrinsicGas
      match ug.2 with
      | some e => ⟨none, none, none, false, some e, ug.1⟩
      | none =>
        let rr := ug.1.callOrCreate d sender contractCreation
        let ret := rr.1
        let st4 := rr.2.1
        let vmerr := rr.2.2
        if vmerr = some VMError.ErrInsufficientBalance then
          ⟨none, none, none, false, some (CoreError.vm VMError.ErrInsufficientBalance), st4⟩
        else
          let requiredGas := st4.gasUsed
          let st5 := st4.refundGas
          let st6 := { st5 with state :=
            st5.state.AddBalance coinbase (st5.gasUsed * (st5.gasPrice : Int)) }
          ⟨ret, some requiredGas, some st6.gasUsed, vmerr.isSome, none, st6⟩

/-- `ApplyMessage`: run the transition, dropping the pre-refund gas value. -/
def ApplyMessage (d : EVMDispatch) (homestead : Bool) (coinbase : Nat)
    (msg : Message) (gp : Nat) (state : StateDB) :
    Option (List Nat) × Option Int × Bool × Option CoreError × StateTransition :=
  let st := NewStateTransition msg gp state
  let r := st.TransitionDb d homestead coinbase
  (r.ret, r.usedGas, r.failed, r.err, r.st)

/-! ## Spec-modelled call and create paths

`core/vm/evm.go` is not part of this repository slice; only its callers are.
The two dispatch paths are therefore modelled from the spec (§4.1, §4.2 step 4,
§7): a recursion/depth guard, a balance check for the value transfer, the value
transfer itself, an interpreter invocation over the target code, and the rule
that any frame error other than an explicit revert consumes all gas remaining
in the frame and discards the frame's state mutations, while a revert discards
the mutations but returns the unspent gas. -/

/-- Modelled from the spec: `crypto.CreateAddress` (external collaborator) —
any injective encoding of `(sender, nonce)` into a fresh address. -/
def CreateAddress (sender nonce : Nat) : Nat :=
  (sender + 1) * 2 ^ 80 + nonce

/-- Modelled from the spec: how a finished frame's outcome is folded into the
call result.  No error keeps the frame's leftover gas and its state; a revert
keeps the leftover gas but restores the pre-call state; any other error
consumes all remaining frame gas and restores the pre-call state. -/
def frameResult (s : StateDB)
    (r : Interpreter × Contract × Option (List Nat) × Option VMError) : CallResult :=
  match r.2.2.2 with
  | none => ⟨r.2.2.1, r.2.1.Gas, none, r.1.evm.state⟩
  | some VMError.errExecutionReverted =>
    ⟨r.2.2.1, r.2.1.Gas, some VMError.errExecutionReverted, s⟩
  | some e => ⟨none, 0, some e, s⟩

/-- Modelled from the spec: the call path `evm.Call`.  Checks recursion
configuration, the call-depth limit and the caller's balance; creates the
recipient when absent; transfers the value; runs the interpreter over the
recipient's code; the frame outcome is folded by `frameResult`. -/
def specCall (cfg : Config) (gt : GasTable) (rules : ChainRules) (fuel : Nat)
    (depth : Nat) (caller toAddr : Nat) (input : List Nat) (gas value : Nat)
    (s : StateDB) : CallResult :=
  if cfg.NoRecursion && 0 < depth then ⟨none, gas, none, s⟩
  else if 1024 < depth then ⟨none, gas, some VMError.ErrDepth, s⟩
  else if s.GetBalance caller < (value : Int) then
    ⟨none, gas, some VMError.ErrInsufficientBalance, s⟩
  else
    let s1 := if s.Exist toAddr then s else s.CreateAccount toAddr
    let s1 := (s1.SubBalance caller (value : Int)).AddBalance toAddr (value : Int)
    let inp : Interpreter :=
      { evm := { depth := depth, abort := false, chainRules := rules, state := s1 }
        cfg := cfg, gasTable := gt, readOnly := false, returnData := none }
    let contract : Contract :=
      { CodeAddr := toAddr, Code := s1.GetCode toAddr, CodeHash := 0
        Input := input, Gas := gas }
    frameResult s (inp.Run fuel contract input)

/-- Modelled from the spec: the creation path `evm.Create`.  Checks recursion
configuration, the depth limit and the caller's balance; increments the
creator's nonce; creates the contract account at the derived address; transfers
the value; runs the interpreter over the init code; on success installs the
returned bytes as the account's code; error handling as for `specCall`. -/
def specCreate (cfg : Config) (gt : GasTable) (rules : ChainRules) (fuel : Nat)
    (depth : Nat) (caller : Nat) (code : List Nat) (gas value : Nat)
    (s : StateDB) : CreateResult :=
  if cfg.NoRecursion && 0 < depth then ⟨none, 0, gas, none, s⟩
  else if 1024 < depth then ⟨none, 0, gas, some VMError.ErrDepth, s⟩
  else if s.GetBalance caller < (value : Int) then
    ⟨none, 0, gas, some VMError.ErrInsufficientBalance, s⟩
  else
    let nonce := s.GetNonce caller
    let addr := CreateAddress caller nonce
    let s1 := s.SetNonce caller (nonce + 1)
    let s1 := s1.CreateAccount addr
    let s1 := (s1.SubBalance caller (value : Int)).AddBalance addr (value : Int)
    let inp : Interpreter :=
      { evm := { depth := depth, abort := false, chainRules := rules, state := s1 }
        cfg := cfg, gasTable := gt, readOnly := false, returnData := none }
    let contract : Contract :=
      { CodeAddr := addr, Code := code, CodeHash := 0, Input := [], Gas := gas }
    let r := inp.Run fuel contract []
    match r.2.2.2 with
    | none =>
      let retCode := (r.2.2.1).getD []
      ⟨r.2.2.1, addr, r.2.1.Gas, none, (r.1.evm.state).SetCode addr retCode⟩
    | some VMError.errExecutionReverted =>
      ⟨r.2.2.1, addr, r.2.1.Gas, some VMError.errExecutionReverted, s⟩
    | some e => ⟨none, addr, 0, some e, s⟩

/-- The spec-modelled dispatch pair used to instantiate `TransitionDb` at the
top level of a transaction (depth 0). -/
def specDispatch (cfg : Config) (gt : GasTable) (rules : ChainRules)
    (fuel : Nat) : EVMDispatch :=
  { Create := specCreate cfg gt rules fuel 0
    Call := specCall cfg gt rules fuel 0 }

/-! ## Block processor (`core/state_processor.go`) -/

/-- A transaction as the block processor sees it; its payload is interpreted by
the per-transaction application function. -/
structure Tx where
  hash : Nat
  deriving DecidableEq, Repr

/-- The per-transaction receipt fields the block processor reads. -/
structure Receipt where
  Logs : List Nat
  GasUsed : Nat
  deriving DecidableEq, Repr

/-- The block header fields the block processor reads. -/
structure Block where
  transactions : List Tx
  gasLimit : Nat
  number : Nat
  hash : Nat
  deriving DecidableEq, Repr

/-- The chain-configuration fields the block processor reads. -/
structure ProcessorChainConfig where
  DAOForkSupport : Bool
  DAOForkBlock : Option Nat
  deriving DecidableEq, Repr

/-- The transaction loop of `StateProcessor.Process`: prepare the logging
context, apply the transaction, abort the whole block on the first error,
otherwise accumulate the receipt, its logs and the gas in block order.
`applyTx` stands for `ApplyTransaction` (per-transaction state transition),
`prepare` for `statedb.Prepare`. -/
def processTxs
    (applyTx : Nat → StateDB → Tx → Except CoreError (Receipt × Nat × Nat × StateDB))
    (prepare : StateDB → Nat → Nat → Nat → StateDB) (blockHash : Nat) :
    List Tx → Nat → Nat → StateDB → Nat →
    Except CoreError (List Receipt × List Nat × Nat × Nat × StateDB)
  | [], _, gp, s, tot => Except.ok ([], [], tot, gp, s)
  | tx :: rest, i, gp, s, tot =>
    let s1 := prepare s tx.hash blockHash i
    match applyTx gp s1 tx with
    | Except.error e => Except.error e
    | Except.ok (receipt, gas, gp', s') =>
      match processTxs applyTx prepare blockHash rest (i + 1) gp' s' (tot + gas) with
      | Except.error e => Except.error e
      | Except.ok (receipts, logs, totF, gpF, sF) =>
        Except.ok (receipt :: receipts, receipt.Logs ++ logs, totF, gpF, sF)

/-- `StateProcessor.Process`: apply the one-time DAO hard-fork patch when the
height matches, size the block gas pool to the block's gas limit, run every
transaction in block order aborting on the first error, and only after all
transactions succeed hand the state to the consensus engine's finalize step.
`applyDAO` stands for `misc.ApplyDAOHardFork` and `finalize` for
`engine.Finalize` (both external collaborators). -/
def Process
    (applyTx : Nat → StateDB → Tx → Except CoreError (Receipt × Nat × Nat × StateDB))
    (prepare : StateDB → Nat → Nat → Nat → StateDB)
    (applyDAO : StateDB → StateDB)
    (finalize : StateDB → List Receipt → StateDB)
    (config : ProcessorChainConfig) (block : Block) (statedb : StateDB) :
    Except CoreError (List Receipt × List Nat × Nat × StateDB) :=
  let gp := block.gasLimit
  let statedb :=
    if config.DAOForkSupport && config.DAOForkBlock = some block.number then
      applyDAO statedb
    else statedb
  match processTxs applyTx prepare block.hash block.transactions 0 gp statedb 0 with
  | Except.error e => Except.error e
  | Except.ok (receipts, allLogs, totalUsedGas, _, s) =>
    Except.ok (receipts, allLogs, totalUsedGas, finalize s receipts)

/-! ## Concrete instances used to evaluate the embedded code -/

/-- A table entry flagged `writes` whose executor halts cleanly without
touching anything; its gas cost is zero. -/
def writeHaltOp : Operation :=
  { execute := fun pc evm c m s => ⟨pc, evm, c, m, s, none, none⟩
    gasCost := fun _ _ _ _ _ _ => Except.ok 0
    validateStack := fun _ => none
    memorySize := none
    halts := true
    jumps := false
    writes := true
    valid := true
    reverts := false
    returns := false }

/-- An invalid table entry (`valid = false`). -/
def invalidOp : Operation :=
  { writeHaltOp with valid := false, writes := false, halts := false }

/-- Interpreter configuration over a given jump table, all flags off. -/
def cfgOf (table : Nat → Operation) : Config :=
  { Debug := false
    NoRecursion := false
    DisableGasMetering := false
    EnablePreimageRecording := false
    JumpTable := table }

def gtZero : GasTable := ⟨0, 0, 0, 0, 0, 0, 0, 0⟩

/-- Finite world state from an association list plus a refund counter. -/
def mkState (l : List (Nat × Account)) (refund : Nat) : StateDB :=
  { accounts := fun a => l.lookup a, refund := refund }

def evmOf (byz : Bool) (s : StateDB) : EVMState :=
  { depth := 0, abort := false, chainRules := ⟨true, byz⟩, state := s }

def contractOf (code : List Nat) (gas : Nat) : Contract :=
  { CodeAddr := 0, Code := code, CodeHash := 0, Input := [], Gas := gas }

/-- A read-only interpreter under pre-Byzantium rules, dispatching every
opcode to the `writes`-flagged entry. -/
def inpStaticNoByz : Interpreter :=
  { evm := evmOf false (mkState [] 0)
    cfg := cfgOf (fun _ => writeHaltOp)
    gasTable := gtZero
    readOnly := true
    returnData := none }

/-- A read-only interpreter under Byzantium rules with the same table. -/
def inpStaticByz : Interpreter :=
  { inpStaticNoByz with evm := evmOf true (mkState [] 0) }

/-- An interpreter holding buffered return data from a previous call. -/
def inpWithRetData : Interpreter :=
  { evm := evmOf true (mkState [] 0)
    cfg := cfgOf (fun _ => writeHaltOp)
    gasTable := gtZero
    readOnly := false
    returnData := some [1] }

/-- World state for the transition scenarios: a funded sender at address 1 and
a contract at address 2 whose code is the single invalid opcode 0xFE. -/
def stateInvalidCode : StateDB :=
  mkState [(1, ⟨1000000000, 0, []⟩), (2, ⟨0, 0, [0xFE]⟩)] 0

/-- A plain call message from address 1 to address 2 with a 100000 gas limit. -/
def msgCallEx : Message :=
  { From := 1, To := some 2, GasPrice := 1, Gas := 100000, Value := 0
    Nonce := 0, CheckNonce := true, Data := [] }

/-- Spec-modelled dispatch instantiated with the all-invalid jump table. -/
def dispatchInvalidCode : EVMDispatch :=
  specDispatch (cfgOf (fun _ => invalidOp)) gtZero ⟨true, true⟩ 10

/-- World state for the refund scenario: funded sender at 1, codeless contract
account at 2, and a refund counter of 15000 accumulated by execution. -/
def stateBigRefund : StateDB :=
  mkState [(1, ⟨1000000000, 0, []⟩), (2, ⟨0, 0, []⟩)] 15000

/-- The transition object for the invalid-opcode call scenario. -/
def stCallInvalid : StateTransition :=
  NewStateTransition msgCallEx 10000000 stateInvalidCode

/-- The transition object for the large-refund scenario. -/
def stCallRefund : StateTransition :=
  NewStateTransition msgCallEx 10000000 stateBigRefund

/-- A table entry whose stack validation demands one operand. -/
def underflowOp : Operation :=
  { writeHaltOp with
    writes := false
    validateStack := fun s =>
      if s.data.length < 1 then some (VMError.stackValidation 1) else none }

/-- An interpreter dispatching to the operand-demanding entry. -/
def inpUnderflow : Interpreter :=
  { evm := evmOf true (mkState [] 0)
    cfg := cfgOf (fun _ => underflowOp)
    gasTable := gtZero
    readOnly := false
    returnData := none }

/-- A standalone transition state in the middle of the refund step: 40000 of
100000 gas remaining, price 2, refund counter 70000. -/
def stRefundMid : StateTransition :=
  { gp := 0, msg := msgCallEx, gas := 40000, gasPrice := 2, initialGas := 100000
    value := 0, data := [], state := mkState [(1, ⟨50, 0, []⟩)] 70000 }

/-- A message whose nonce is one higher than the sender's on-chain nonce 5. -/
def msgNonceSix : Message :=
  { From := 1, To := some 2, GasPrice := 1, Gas := 30000, Value := 0
    Nonce := 6, CheckNonce := true, Data := [] }

def stNonceHigh : StateTransition :=
  NewStateTransition msgNonceSix 10000000 (mkState [(1, ⟨500000, 5, []⟩)] 0)

/-- A transition whose sender account does not exist yet. -/
def stMissingSender : StateTransition :=
  NewStateTransition
    { From := 5, To := some 6, GasPrice := 0, Gas := 0, Value := 0
      Nonce := 0, CheckNonce := true, Data := [] }
    0 (mkState [] 0)

/-- Per-transaction application that rejects the transaction with hash 2 and
accepts everything else at a flat 21000 gas. -/
def applyTxEx : Nat → StateDB → Tx → Except CoreError (Receipt × Nat × Nat × StateDB) :=
  fun gp s tx =>
    if tx.hash = 2 then Except.error CoreError.ErrNonceTooLow
    else Except.ok (⟨[tx.hash], 21000⟩, 21000, gp - 21000, s)

def prepareId : StateDB → Nat → Nat → Nat → StateDB := fun s _ _ _ => s

def finalizeId : StateDB → List Receipt → StateDB := fun s _ => s

def blockTwoTx : Block :=
  { transactions := [⟨1⟩, ⟨2⟩], gasLimit := 100000, number := 0, hash := 7 }

def configNoDAO : ProcessorChainConfig :=
  { DAOForkSupport := false, DAOForkBlock := none }

/-- A gas-conservative dispatch that performs no work: the call path returns
all gas, the create path returns all gas and no address. -/
def dispatchNoop : EVMDispatch :=
  { Create := fun _ _ g _ s => ⟨none, 0, g, none, s⟩
    Call := fun _ _ _ g _ s => ⟨none, g, none, s⟩ }

/-! ## Helper lemmas -/

theorem bitLenAux_le_iff :
    ∀ (fuel n k : Nat), n ≤ fuel → (bitLenAux fuel n ≤ k ↔ n < 2 ^ k) := by
  intro fuel
  induction fuel with
  | zero =>
    intro n k h
    have hn : n = 0 := Nat.le_zero.mp h
    subst hn
    simp only [bitLenAux, Nat.zero_le, true_iff]
    exact pow_pos (by norm_num) k
  | succ fuel ih =>
    intro n k h
    by_cases hn : n = 0
    · subst hn
      have h0 : bitLenAux (fuel + 1) 0 = 0 := by simp [bitLenAux]
      rw [h0]
      simp only [Nat.zero_le, true_iff]
      exact Nat.two_pow_pos k
    · simp only [bitLenAux, if_neg hn]
      cases k with
      | zero => simp only [pow_zero]; omega
      | succ j =>
        have hrec : n / 2 ≤ fuel := by omega
        rw [Nat.succ_le_succ_iff, ih (n / 2) j hrec, pow_succ]
        omega

theorem bigBitLen_le_iff (n k : Nat) : bigBitLen n ≤ k ↔ n < 2 ^ k :=
  bitLenAux_le_iff n n k le_rfl

theorem bigBitLen_pos_iff (n : Nat) : 0 < bigBitLen n ↔ n ≠ 0 := by
  have h := bigBitLen_le_iff n 0
  rw [pow_zero] at h
  omega

theorem StateDB.GetBalance_AddBalance_self (s : StateDB) (a : Nat) (v : Int) :
    (s.AddBalance a v).GetBalance a = s.GetBalance a + v := by
  simp [StateDB.AddBalance, StateDB.upd, StateDB.GetBalance, StateDB.getOr]

theorem StateDB.GetRefund_AddBalance (s : StateDB) (a : Nat) (v : Int) :
    (s.AddBalance a v).GetRefund = s.GetRefund := rfl

theorem StateDB.GetRefund_SubBalance (s : StateDB) (a : Nat) (v : Int) :
    (s.SubBalance a v).GetRefund = s.GetRefund := rfl

theorem StateDB.GetRefund_SetNonce (s : StateDB) (a n : Nat) :
    (s.SetNonce a n).GetRefund = s.GetRefund := rfl

theorem StateDB.GetRefund_CreateAccount (s : StateDB) (a : Nat) :
    (s.CreateAccount a).GetRefund = s.GetRefund := rfl

theorem StateDB.Exist_CreateAccount_self (s : StateDB) (a : Nat) :
    (s.CreateAccount a).Exist a = true := by
  simp [StateDB.CreateAccount, StateDB.Exist]

theorem StateDB.GetBalance_CreateAccount (s : StateDB) (f a : Nat) :
    (s.CreateAccount f).GetBalance a = s.GetBalance a := by
  by_cases h : a = f
  · subst h; simp [StateDB.CreateAccount, StateDB.GetBalance, StateDB.getOr, emptyAccount]
  · simp [StateDB.CreateAccount, StateDB.GetBalance, StateDB.getOr, h]

theorem StateDB.GetNonce_CreateAccount_self (s : StateDB) (a : Nat) :
    (s.CreateAccount a).GetNonce a = 0 := by
  simp [StateDB.CreateAccount, StateDB.GetNonce, StateDB.getOr, emptyAccount]

theorem StateDB.GetNonce_CreateAccount_ne (s : StateDB) (f a : Nat) (h : a ≠ f) :
    (s.CreateAccount f).GetNonce a = s.GetNonce a := by
  simp [StateDB.CreateAccount, StateDB.GetNonce, StateDB.getOr, h]

theorem StateDB.GetNonce_eq_zero_of_not_Exist (s : StateDB) (a : Nat)
    (h : s.Exist a = false) : s.GetNonce a = 0 := by
  simp only [StateDB.Exist] at h
  cases hacc : s.accounts a with
  | none => simp [StateDB.GetNonce, StateDB.getOr, hacc, emptyAccount]
  | some acc => rw [hacc] at h; simp at h

theorem StateDB.GetBalance_eq_zero_of_not_Exist (s : StateDB) (a : Nat)
    (h : s.Exist a = false) : s.GetBalance a = 0 := by
  simp only [StateDB.Exist] at h
  cases hacc : s.accounts a with
  | none => simp [StateDB.GetBalance, StateDB.getOr, hacc, emptyAccount]
  | some acc => rw [hacc] at h; simp at h

theorem from_fst (st : StateTransition) : (st.from).1 = st.msg.From := by
  simp only [StateTransition.from]
  split <;> rfl

theorem from_snd_msg (st : StateTransition) : ((st.from).2).msg = st.msg := by
  simp only [StateTransition.from]
  split <;> rfl

theorem from_snd_gas (st : StateTransition) : ((st.from).2).gas = st.gas := by
  simp only [StateTransition.from]
  split <;> rfl

theorem from_snd_gasPrice (st : StateTransition) : ((st.from).2).gasPrice = st.gasPrice := by
  simp only [StateTransition.from]
  split <;> rfl

theorem from_snd_initialGas (st : StateTransition) :
    ((st.from).2).initialGas = st.initialGas := by
  simp only [StateTransition.from]
  split <;> rfl

theorem from_snd_gp (st : StateTransition) : ((st.from).2).gp = st.gp := by
  simp only [StateTransition.from]
  split <;> rfl

theorem from_snd_data (st : StateTransition) : ((st.from).2).data = st.data := by
  simp only [StateTransition.from]
  split <;> rfl

theorem from_snd_value (st : StateTransition) : ((st.from).2).value = st.value := by
  simp only [StateTransition.from]
  split <;> rfl

theorem from_snd_GetBalance (st : StateTransition) (a : Nat) :
    ((st.from).2).state.GetBalance a = st.state.GetBalance a := by
  simp only [StateTransition.from]
  split
  · rfl
  · exact StateDB.GetBalance_CreateAccount _ _ _

theorem from_snd_GetNonce (st : StateTransition) (a : Nat) :
    ((st.from).2).state.GetNonce a = st.state.GetNonce a := by
  by_cases hex : st.state.Exist st.msg.From
  · simp [StateTransition.from, hex]
  · simp only [StateTransition.from, Bool.not_eq_true] at hex ⊢
    rw [if_neg (by simp [hex])]
    by_cases ha : a = st.msg.From
    · subst ha
      rw [StateDB.GetNonce_CreateAccount_self, StateDB.GetNonce_eq_zero_of_not_Exist _ _ hex]
    · exact StateDB.GetNonce_CreateAccount_ne _ _ _ ha

theorem from_snd_GetRefund (st : StateTransition) :
    ((st.from).2).state.GetRefund = st.state.GetRefund := by
  simp only [StateTransition.from]
  split <;> rfl

theorem to_snd_msg (st : StateTransition) : ((st.to).2).msg = st.msg := by
  simp only [StateTransition.to]
  rcases st.msg.To with _ | a
  · rfl
  · dsimp only
    split <;> rfl

theorem to_snd_gas (st : StateTransition) : ((st.to).2).gas = st.gas := by
  simp only [StateTransition.to]
  rcases st.msg.To with _ | a
  · rfl
  · dsimp only
    split <;> rfl

theorem to_snd_gasPrice (st : StateTransition) : ((st.to).2).gasPrice = st.gasPrice := by
  simp only [StateTransition.to]
  rcases st.msg.To with _ | a
  · rfl
  · dsimp only
    split <;> rfl

theorem to_snd_initialGas (st : StateTransition) :
    ((st.to).2).initialGas = st.initialGas := by
  simp only [StateTransition.to]
  rcases st.msg.To with _ | a
  · rfl
  · dsimp only
    split <;> rfl

theorem to_snd_data (st : StateTransition) : ((st.to).2).data = st.data := by
  simp only [StateTransition.to]
  rcases st.msg.To with _ | a
  · rfl
  · dsimp only
    split <;> rfl

theorem to_snd_value (st : StateTransition) : ((st.to).2).value = st.value := by
  simp only [StateTransition.to]
  rcases st.msg.To with _ | a
  · rfl
  · dsimp only
    split <;> rfl

theorem enforceRestrictions_static_violation (inp : Interpreter) (op : Nat)
    (operation : Operation) (stack : Stack)
    (hbyz : inp.evm.chainRules.IsByzantium = true)
    (hro : inp.readOnly = true)
    (hw : operation.writes = true ∨ (op = CALL ∧ stack.Back 2 ≠ 0)) :
    inp.enforceRestrictions op operation stack = some VMError.errWriteProtection := by
  unfold Interpreter.enforceRestrictions
  rw [hbyz, hro]
  simp only [if_true]
  rcases hw with hw | ⟨hop, hz⟩
  · rw [hw]
    simp
  · subst hop
    have hpos : 0 < bigBitLen (stack.Back 2) := (bigBitLen_pos_iff _).mpr hz
    simp [hpos]

theorem buyGas_success (st : StateTransition) (h : (st.buyGas).2 = none) :
    (st.buyGas).1.gas = st.gas + st.msg.Gas ∧
    (st.buyGas).1.initialGas = st.msg.Gas ∧
    (st.buyGas).1.msg = st.msg ∧
    (st.buyGas).1.gasPrice = st.gasPrice ∧
    (st.buyGas).1.data = st.data ∧
    st.msg.Gas < 2 ^ 64 := by
  by_cases h1 : 64 < bigBitLen st.msg.Gas
  · simp [StateTransition.buyGas, h1] at h
  · have hlt : st.msg.Gas < 2 ^ 64 := by
      have := bigBitLen_le_iff st.msg.Gas 64
      omega
    by_cases h2 : ((st.from).2).state.GetBalance (st.from).1 <
        (st.msg.Gas : Int) * (st.gasPrice : Int)
    · simp [StateTransition.buyGas, h1, h2] at h
    · rcases hsub : GasPool.SubGas ((st.from).2).gp st.msg.Gas with _ | gp'
      · simp [StateTransition.buyGas, h1, h2, hsub] at h
      · simp [StateTransition.buyGas, h1, h2, hsub, from_snd_gas, from_snd_msg,
          from_snd_gasPrice, from_snd_data]
        omega

theorem preCheck_eq_buyGas_of_success (st : StateTransition)
    (h : (st.preCheck).2 = none) : st.preCheck = ((st.from).2).buyGas := by
  simp only [StateTransition.preCheck, from_snd_msg] at h ⊢
  by_cases hc : st.msg.CheckNonce
  · rw [if_pos hc] at h ⊢
    by_cases hlt : ((st.from).2).state.GetNonce st.msg.From < st.msg.Nonce
    · rw [if_pos hlt] at h
      simp at h
    · rw [if_neg hlt] at h ⊢
      by_cases hgt : st.msg.Nonce < ((st.from).2).state.GetNonce st.msg.From
      · rw [if_pos hgt] at h
        simp at h
      · rw [if_neg hgt]
  · rw [if_neg hc]

theorem preCheck_success (st : StateTransition) (h : (st.preCheck).2 = none) :
    (st.preCheck).1 = (((st.from).2).buyGas).1 ∧ (((st.from).2).buyGas).2 = none := by
  have heq := preCheck_eq_buyGas_of_success st h
  rw [heq] at h
  exact ⟨by rw [heq], h⟩

theorem useGas_success (st : StateTransition) (amount : Nat)
    (h : (st.useGas amount).2 = none) :
    (st.useGas amount).1 = { st with gas := st.gas - amount } ∧ amount ≤ st.gas := by
  by_cases hc : st.gas < amount
  · simp [StateTransition.useGas, hc] at h
  · simp [StateTransition.useGas, hc]
    omega

theorem callOrCreate_facts (d : EVMDispatch) (sender : Nat) (cc : Bool)
    (st : StateTransition)
    (hCr : ∀ c dt g v s, (d.Create c dt g v s).leftOverGas ≤ g)
    (hCa : ∀ c t dt g v s, (d.Call c t dt g v s).leftOverGas ≤ g) :
    (st.callOrCreate d sender cc).2.1.gas ≤ st.gas ∧
    (st.callOrCreate d sender cc).2.1.initialGas = st.initialGas ∧
    (st.callOrCreate d sender cc).2.1.gasPrice = st.gasPrice ∧
    (st.callOrCreate d sender cc).2.1.msg = st.msg := by
  cases cc with
  | true =>
    simp only [StateTransition.callOrCreate, if_true]
    exact ⟨hCr _ _ _ _ _, by trivial, by trivial, by trivial⟩
  | false =>
    simp only [StateTransition.callOrCreate, Bool.false_eq_true, if_false]
    refine ⟨?_, ?_, ?_, ?_⟩
    · calc (d.Call _ _ _ _ _ _).leftOverGas
          ≤ (({ st with state := st.state.SetNonce sender (st.state.GetNonce sender + 1) } :
              StateTransition).to).2.gas := hCa _ _ _ _ _ _
        _ = st.gas := to_snd_gas _
    · exact to_snd_initialGas _
    · exact to_snd_gasPrice _
    · exact to_snd_msg _

theorem refundGas_facts (st : StateTransition)
    (h1 : st.gas ≤ st.initialGas) (h2 : st.initialGas < 2 ^ 64) :
    (st.refundGas).gas =
      st.gas + min st.state.GetRefund ((st.initialGas - st.gas) / 2) ∧
    (st.refundGas).initialGas = st.initialGas ∧
    (st.refundGas).gasPrice = st.gasPrice ∧
    (st.refundGas).state.GetBalance st.msg.From =
      st.state.GetBalance st.msg.From + (st.gas : Int) * (st.gasPrice : Int) +
        ((min st.state.GetRefund ((st.initialGas - st.gas) / 2) : Nat) : Int) *
          (st.gasPrice : Int) := by
  have hrefund :
      min (((st.initialGas : Int) - (st.gas : Int)) / 2)
          ((st.state.GetRefund : Nat) : Int) =
        ((min st.state.GetRefund ((st.initialGas - st.gas) / 2) : Nat) : Int) := by
    omega
  have hsmall : intUint64
      ((min st.state.GetRefund ((st.initialGas - st.gas) / 2) : Nat) : Int) =
      min st.state.GetRefund ((st.initialGas - st.gas) / 2) := by
    unfold intUint64
    omega
  unfold StateTransition.refundGas
  simp only [StateTransition.gasUsed, from_snd_gas, from_snd_initialGas,
    from_snd_gasPrice, from_snd_msg, from_fst, StateDB.GetRefund_AddBalance,
    from_snd_GetRefund, StateDB.GetBalance_AddBalance_self, from_snd_GetBalance]
  rw [hrefund, hsmall]
  exact ⟨rfl, trivial, trivial, rfl⟩

/-! ## Claim theorems -/

/-- Claim C1 (amended): for every interpreter step executed with
`readOnly = true` under the Byzantium rule set, if the dispatched (valid,
stack-validated) operation has `writes = true`, or it is CALL with a non-zero
third stack item, the step fails with the write-protection error, leaving the
interpreter (hence the world state) and the contract (hence the frame gas)
unchanged. -/
theorem static_write_protection_byzantium
    (inp : Interpreter) (contract : Contract) (pc : Nat) (mem : Memory) (stack : Stack)
    (hro : inp.readOnly = true)
    (hbyz : inp.evm.chainRules.IsByzantium = true)
    (hvalid : (inp.cfg.JumpTable (contract.GetOp pc)).valid = true)
    (hstack : (inp.cfg.JumpTable (contract.GetOp pc)).validateStack stack = none)
    (hw : (inp.cfg.JumpTable (contract.GetOp pc)).writes = true ∨
      (contract.GetOp pc = CALL ∧ stack.Back 2 ≠ 0)) :
    step inp contract pc mem stack =
      StepResult.done inp contract none (some VMError.errWriteProtection) ∧
    (inp.evm.abort = false → ∀ fuel, runLoop (fuel + 1) inp contract pc mem stack =
      (inp, contract, none, some VMError.errWriteProtection)) := by
  have henf := enforceRestrictions_static_violation inp (contract.GetOp pc)
    (inp.cfg.JumpTable (contract.GetOp pc)) stack hbyz hro hw
  have hstep : step inp contract pc mem stack =
      StepResult.done inp contract none (some VMError.errWriteProtection) := by
    simp [step, hvalid, hstack, henf]
  refine ⟨hstep, fun habort fuel => ?_⟩
  simp [runLoop, habort, hstep]

/-- Witness for C1: a concrete read-only Byzantium step over a `writes`-flagged
operation fails with the write-protection error. -/
theorem static_write_protection_byzantium_witness :
    step inpStaticByz (contractOf [0x55] 100) 0 ⟨[]⟩ ⟨[]⟩ =
      StepResult.done inpStaticByz (contractOf [0x55] 100) none
        (some VMError.errWriteProtection) :=
  (static_write_protection_byzantium inpStaticByz (contractOf [0x55] 100) 0 ⟨[]⟩ ⟨[]⟩
    rfl rfl rfl rfl (Or.inl rfl)).1

/-- Counterexample for C1 as stated: with the pre-Byzantium rule set in
effect, a read-only step dispatching a `writes`-flagged operation does not
fail with the write-protection error — it executes and halts cleanly. -/
theorem static_write_protection_not_enforced_preByzantium :
    inpStaticNoByz.readOnly = true ∧
    inpStaticNoByz.evm.chainRules.IsByzantium = false ∧
    (inpStaticNoByz.cfg.JumpTable (Contract.GetOp (contractOf [0x55] 100) 0)).writes = true ∧
    step inpStaticNoByz (contractOf [0x55] 100) 0 ⟨[]⟩ ⟨[]⟩ =
      StepResult.done inpStaticNoByz (contractOf [0x55] 100) none none :=
  ⟨rfl, rfl, rfl, rfl⟩

/-- Claim C7: a step whose stack validation fails, or whose write-restriction
check fails, terminates with that error before any gas is computed or
deducted and before the executor runs: the returned interpreter and contract
are exactly the ones the step started with. -/
theorem prevalidation_failure_charges_no_gas
    (inp : Interpreter) (contract : Contract) (pc : Nat) (mem : Memory) (stack : Stack)
    (hvalid : (inp.cfg.JumpTable (contract.GetOp pc)).valid = true) :
    (∀ e, (inp.cfg.JumpTable (contract.GetOp pc)).validateStack stack = some e →
      step inp contract pc mem stack = StepResult.done inp contract none (some e)) ∧
    (∀ e, (inp.cfg.JumpTable (contract.GetOp pc)).validateStack stack = none →
      inp.enforceRestrictions (contract.GetOp pc)
        (inp.cfg.JumpTable (contract.GetOp pc)) stack = some e →
      step inp contract pc mem stack = StepResult.done inp contract none (some e)) := by
  constructor
  · intro e he
    simp [step, hvalid, he]
  · intro e hs he
    simp [step, hvalid, hs, he]

/-- Witness for C7: a concrete step over an operation demanding one stack
operand, run on an empty stack, fails with the stack-validation error and
leaves the contract's gas untouched. -/
theorem prevalidation_failure_charges_no_gas_witness :
    step inpUnderflow (contractOf [0x01] 50) 0 ⟨[]⟩ ⟨[]⟩ =
      StepResult.done inpUnderflow (contractOf [0x01] 50) none
        (some (VMError.stackValidation 1)) :=
  (prevalidation_failure_charges_no_gas inpUnderflow (contractOf [0x01] 50) 0 ⟨[]⟩ ⟨[]⟩
    rfl).1 (VMError.stackValidation 1) rfl

/-- Claim C9 (amended): `Run` on empty contract code returns immediately with
nil output and nil error, consuming no gas, executing no opcode and leaving
the world state untouched; the call-depth counter is incremented and restored,
and the buffered return data of the previous call is cleared. -/
theorem run_empty_code_immediate_return (fuel : Nat) (inp : Interpreter)
    (contract : Contract) (input : List Nat) (h : contract.Code = []) :
    inp.Run fuel contract input = ({ inp with returnData := none }, contract, none, none) := by
  simp [Interpreter.Run, h]

/-- Witness for C9: a concrete empty-code run returns nil output and nil error
with the contract (and its gas) unchanged. -/
theorem run_empty_code_immediate_return_witness :
    Interpreter.Run 3 inpWithRetData (contractOf [] 5) [] =
      ({ inpWithRetData with returnData := none }, contractOf [] 5, none, none) :=
  run_empty_code_immediate_return 3 inpWithRetData (contractOf [] 5) [] rfl

/-- Counterexample for C9 as stated ("only the call-depth counter is
incremented and decremented"): an empty-code run also clears the buffered
return data of the previous call, so the interpreter is mutated beyond the
depth counter. -/
theorem run_empty_code_clears_returnData :
    (Interpreter.Run 1 inpWithRetData (contractOf [] 5) []).1.returnData ≠
      inpWithRetData.returnData ∧
    (Interpreter.Run 1 inpWithRetData (contractOf [] 5) []).1.evm.depth =
      inpWithRetData.evm.depth ∧
    (Interpreter.Run 1 inpWithRetData (contractOf [] 5) []).2.1 = contractOf [] 5 := by
  refine ⟨by decide, by decide, by decide⟩

/-- Claim C3: the refund step adds back exactly
`min rawRefundCounter (gasUsedBeforeRefund / 2)`, so the amount added back
never exceeds half the gas used before the refund, and the refund is credited
to the sender at the original gas price. -/
theorem refund_capped_at_half_gas_used (st : StateTransition)
    (h1 : st.gas ≤ st.initialGas) (h2 : st.initialGas < 2 ^ 64) :
    (st.refundGas).gas =
      st.gas + min st.state.GetRefund ((st.initialGas - st.gas) / 2) ∧
    (st.refundGas).gas - st.gas ≤ (st.initialGas - st.gas) / 2 ∧
    (st.refundGas).state.GetBalance st.msg.From =
      st.state.GetBalance st.msg.From + (st.gas : Int) * (st.gasPrice : Int) +
        ((min st.state.GetRefund ((st.initialGas - st.gas) / 2) : Nat) : Int) *
          (st.gasPrice : Int) := by
  obtain ⟨hg, h3, h4, hb⟩ := refundGas_facts st h1 h2
  refine ⟨hg, ?_, hb⟩
  omega

/-- Witness for C3: a refund step at 40000 of 100000 gas remaining with a raw
refund counter of 70000; the refund added back is capped at 30000. -/
theorem refund_capped_at_half_gas_used_witness :
    ((stRefundMid.refundGas).gas =
        stRefundMid.gas +
          min stRefundMid.state.GetRefund
            ((stRefundMid.initialGas - stRefundMid.gas) / 2) ∧
      (stRefundMid.refundGas).gas - stRefundMid.gas ≤
        (stRefundMid.initialGas - stRefundMid.gas) / 2 ∧
      (stRefundMid.refundGas).state.GetBalance stRefundMid.msg.From =
        stRefundMid.state.GetBalance stRefundMid.msg.From +
          (stRefundMid.gas : Int) * (stRefundMid.gasPrice : Int) +
          ((min stRefundMid.state.GetRefund
              ((stRefundMid.initialGas - stRefundMid.gas) / 2) : Nat) : Int) *
            (stRefundMid.gasPrice : Int)) ∧
    (stRefundMid.refundGas).gas = 70000 :=
  ⟨refund_capped_at_half_gas_used stRefundMid (by decide) (by decide), by decide⟩

theorem preCheck_eq_high (st : StateTransition) (hc : st.msg.CheckNonce = true)
    (hlt : st.state.GetNonce st.msg.From < st.msg.Nonce) :
    st.preCheck = ((st.from).2, some CoreError.ErrNonceTooHigh) := by
  simp only [StateTransition.preCheck, from_snd_msg, from_snd_GetNonce]
  rw [if_pos hc, if_pos hlt]

theorem preCheck_eq_low (st : StateTransition) (hc : st.msg.CheckNonce = true)
    (hgt : st.msg.Nonce < st.state.GetNonce st.msg.From) :
    st.preCheck = ((st.from).2, some CoreError.ErrNonceTooLow) := by
  simp only [StateTransition.preCheck, from_snd_msg, from_snd_GetNonce]
  rw [if_pos hc, if_neg (by omega), if_pos hgt]

theorem TransitionDb_of_preCheck_fail (st : StateTransition) (d : EVMDispatch)
    (hs : Bool) (cb : Nat) (e : CoreError) (hpc : (st.preCheck).2 = some e) :
    (st.TransitionDb d hs cb).err = some e ∧
    (st.TransitionDb d hs cb).usedGas = none ∧
    (st.TransitionDb d hs cb).failed = false := by
  simp [StateTransition.TransitionDb, hpc]

/-- Claim C4: with nonce checking requested, the pre-check rejects any message
whose nonce differs from the sender's on-chain nonce, the transition surfaces
the rejection as its (block-fatal, unbilled) error, and the two directions are
distinguished: message nonce above the on-chain nonce gives nonce-too-high,
below gives nonce-too-low. -/
theorem preCheck_nonce_mismatch_fatal (st : StateTransition) (d : EVMDispatch)
    (hs : Bool) (cb : Nat) (hc : st.msg.CheckNonce = true) :
    (st.state.GetNonce st.msg.From < st.msg.Nonce →
      (st.preCheck).2 = some CoreError.ErrNonceTooHigh ∧
      (st.TransitionDb d hs cb).err = some CoreError.ErrNonceTooHigh ∧
      (st.TransitionDb d hs cb).usedGas = none) ∧
    (st.msg.Nonce < st.state.GetNonce st.msg.From →
      (st.preCheck).2 = some CoreError.ErrNonceTooLow ∧
      (st.TransitionDb d hs cb).err = some CoreError.ErrNonceTooLow ∧
      (st.TransitionDb d hs cb).usedGas = none) := by
  constructor
  · intro hlt
    have hpc : (st.preCheck).2 = some CoreError.ErrNonceTooHigh := by
      rw [preCheck_eq_high st hc hlt]
    obtain ⟨he, hu, hf⟩ := TransitionDb_of_preCheck_fail st d hs cb _ hpc
    exact ⟨hpc, he, hu⟩
  · intro hgt
    have hpc : (st.preCheck).2 = some CoreError.ErrNonceTooLow := by
      rw [preCheck_eq_low st hc hgt]
    obtain ⟨he, hu, hf⟩ := TransitionDb_of_preCheck_fail st d hs cb _ hpc
    exact ⟨hpc, he, hu⟩

/-- Witness for C4: a message nonce of 6 against an on-chain nonce of 5 is
rejected block-fatally as nonce-too-high, with nothing billed. -/
theorem preCheck_nonce_mismatch_fatal_witness :
    (stNonceHigh.preCheck).2 = some CoreError.ErrNonceTooHigh ∧
    (stNonceHigh.TransitionDb dispatchInvalidCode true 99).err =
      some CoreError.ErrNonceTooHigh ∧
    (stNonceHigh.TransitionDb dispatchInvalidCode true 99).usedGas = none :=
  (preCheck_nonce_mismatch_fatal stNonceHigh dispatchInvalidCode true 99 rfl).1
    (by decide)

/-- Claim C10: the transition creates the sender account (and, for a call, the
recipient account) before using it; a freshly created sender enters the
pre-check with nonce 0 and balance 0, so a zero-nonce message passes the nonce
check and the pre-check proceeds to gas purchase rather than failing for a
missing account. -/
theorem transition_creates_missing_accounts (st : StateTransition) :
    ((st.from).1 = st.msg.From ∧ ((st.from).2).state.Exist st.msg.From = true) ∧
    (∀ a, st.msg.To = some a → ((st.to).2).state.Exist a = true) ∧
    (st.state.Exist st.msg.From = false →
      ((st.from).2).state.GetNonce st.msg.From = 0 ∧
      ((st.from).2).state.GetBalance st.msg.From = 0 ∧
      (st.msg.CheckNonce = true → st.msg.Nonce = 0 →
        st.preCheck = ((st.from).2).buyGas)) := by
  refine ⟨⟨from_fst st, ?_⟩, ?_, ?_⟩
  · by_cases hex : st.state.Exist st.msg.From
    · simp [StateTransition.from, hex]
    · simp only [StateTransition.from, Bool.not_eq_true] at hex ⊢
      rw [if_neg (by simp [hex])]
      exact StateDB.Exist_CreateAccount_self _ _
  · intro a ha
    simp only [StateTransition.to, ha]
    by_cases hex : st.state.Exist a
    · simp [hex]
    · simp only [Bool.not_eq_true] at hex
      rw [if_neg (by simp [hex])]
      exact StateDB.Exist_CreateAccount_self _ _
  · intro hex
    have h1 : ((st.from).2).state.GetNonce st.msg.From = 0 := by
      rw [from_snd_GetNonce]
      exact StateDB.GetNonce_eq_zero_of_not_Exist _ _ hex
    have h2 : ((st.from).2).state.GetBalance st.msg.From = 0 := by
      rw [from_snd_GetBalance]
      exact StateDB.GetBalance_eq_zero_of_not_Exist _ _ hex
    refine ⟨h1, h2, fun hc h0 => ?_⟩
    simp only [StateTransition.preCheck, from_snd_msg]
    rw [if_pos hc, from_snd_GetNonce,
      StateDB.GetNonce_eq_zero_of_not_Exist _ _ hex, h0]
    simp

/-- Witness for C10: a transition whose sender account is absent creates it,
sees nonce 0 and balance 0 in the pre-check, and proceeds to gas purchase. -/
theorem transition_creates_missing_accounts_witness :
    ((stMissingSender.from).1 = stMissingSender.msg.From ∧
      ((stMissingSender.from).2).state.Exist stMissingSender.msg.From = true) ∧
    ((stMissingSender.from).2).state.GetNonce stMissingSender.msg.From = 0 ∧
    ((stMissingSender.from).2).state.GetBalance stMissingSender.msg.From = 0 ∧
    stMissingSender.preCheck = ((stMissingSender.from).2).buyGas := by
  obtain ⟨ha, hb, hc⟩ := transition_creates_missing_accounts stMissingSender
  obtain ⟨h1, h2, h3⟩ := hc (by decide)
  exact ⟨ha, h1, h2, h3 rfl rfl⟩

/-- Claim C5: after a successful pre-check and intrinsic-gas charge, a VM error
from the dispatched call or create path is escalated to the transition's error
precisely when it is the insufficient-balance error; every other VM error
yields `err = none` with `failed` set and the transaction billed. -/
theorem vm_error_policy_insufficient_balance_only
    (st st1 st2 st3 st4 : StateTransition) (sender : Nat)
    (d : EVMDispatch) (hs : Bool) (cb : Nat)
    (ret : Option (List Nat)) (vmerr : Option VMError)
    (hpre : st.preCheck = (st1, none))
    (hfrom : st1.from = (sender, st2))
    (hbit : ¬ 64 < bigBitLen (IntrinsicGas st2.data st2.msg.To.isNone hs))
    (huse : st2.useGas (IntrinsicGas st2.data st2.msg.To.isNone hs) = (st3, none))
    (hdisp : st3.callOrCreate d sender st2.msg.To.isNone = (ret, st4, vmerr)) :
    (vmerr ≠ some VMError.ErrInsufficientBalance →
      (st.TransitionDb d hs cb).err = none ∧
      (st.TransitionDb d hs cb).failed = vmerr.isSome ∧
      (st.TransitionDb d hs cb).ret = ret ∧
      (st.TransitionDb d hs cb).usedGas.isSome = true) ∧
    (vmerr = some VMError.ErrInsufficientBalance →
      (st.TransitionDb d hs cb).err = some (CoreError.vm VMError.ErrInsufficientBalance) ∧
      (st.TransitionDb d hs cb).usedGas = none ∧
      (st.TransitionDb d hs cb).failed = false) := by
  constructor
  · intro hne
    simp [StateTransition.TransitionDb, hpre, hfrom, hbit, huse, hdisp, hne]
  · intro heq
    simp [StateTransition.TransitionDb, hpre, hfrom, hbit, huse, hdisp, heq]

/-- Witness for C5: the invalid-opcode call scenario produces a non-nil VM
error that is not insufficient-balance; the transition reports `err = none`
and `failed = true` and bills the transaction. -/
theorem vm_error_policy_insufficient_balance_only_witness :
    (stCallInvalid.TransitionDb dispatchInvalidCode true 99).err = none ∧
    (stCallInvalid.TransitionDb dispatchInvalidCode true 99).failed = true := by
  obtain ⟨h1, h2, h3, h4⟩ :=
    (vm_error_policy_insufficient_balance_only stCallInvalid _ _ _ _ _
      dispatchInvalidCode true 99 _ _ rfl rfl (by decide) rfl rfl).1 (by decide)
  exact ⟨h1, by rw [h2]; decide⟩

theorem frameResult_nonrevert_error (s : StateDB)
    (r : Interpreter × Contract × Option (List Nat) × Option VMError) (e : VMError)
    (hv : (frameResult s r).vmerr = some e)
    (hne : e ≠ VMError.errExecutionReverted) :
    (frameResult s r).leftOverGas = 0 ∧ (frameResult s r).state = s := by
  unfold frameResult at hv ⊢
  rcases hr : r.2.2.2 with _ | e1
  · rw [hr] at hv
    simp at hv
  · cases e1 <;> simp_all

/-- Claim C2: a frame that terminates with any error other than an explicit
revert has all of its remaining gas consumed and its state mutations
discarded; concretely, a top-level call into bytecode consisting solely of an
invalid opcode ends with `failed = true`, `usedGas` equal to the full gas
limit of 100000, and no block-fatal error. -/
theorem interpreter_error_consumes_all_gas :
    (∀ (cfg : Config) (gt : GasTable) (rules : ChainRules)
        (fuel depth caller toA : Nat) (input : List Nat) (gas value : Nat)
        (s : StateDB),
      (cfg.NoRecursion && decide (0 < depth)) = false →
      ¬ 1024 < depth →
      ¬ s.GetBalance caller < (value : Int) →
      ∀ e, (specCall cfg gt rules fuel depth caller toA input gas value s).vmerr = some e →
        e ≠ VMError.errExecutionReverted →
        (specCall cfg gt rules fuel depth caller toA input gas value s).leftOverGas = 0 ∧
        (specCall cfg gt rules fuel depth caller toA input gas value s).state = s) ∧
    ((stCallInvalid.TransitionDb dispatchInvalidCode true 99).failed = true ∧
      (stCallInvalid.TransitionDb dispatchInvalidCode true 99).usedGas = some 100000 ∧
      (stCallInvalid.TransitionDb dispatchInvalidCode true 99).err = none) := by
  constructor
  · intro cfg gt rules fuel depth caller toA input gas value s hnr hd hb e hv hne
    unfold specCall at hv ⊢
    rw [if_neg (by simp [hnr]), if_neg hd, if_neg hb] at hv ⊢
    exact frameResult_nonrevert_error _ _ e hv hne
  · exact ⟨by decide, by decide, by decide⟩

/-- Witness for C2: a concrete call frame over the all-invalid table errors
with the invalid-opcode error; its leftover gas is zero and the pre-call state
is restored. -/
theorem interpreter_error_consumes_all_gas_witness :
    (specCall (cfgOf (fun _ => invalidOp)) gtZero ⟨true, true⟩ 5 0 1 2 [] 777 0
        stateInvalidCode).leftOverGas = 0 ∧
    (specCall (cfgOf (fun _ => invalidOp)) gtZero ⟨true, true⟩ 5 0 1 2 [] 777 0
        stateInvalidCode).state = stateInvalidCode :=
  interpreter_error_consumes_all_gas.1 (cfgOf (fun _ => invalidOp)) gtZero
    ⟨true, true⟩ 5 0 1 2 [] 777 0 stateInvalidCode (by decide) (by decide)
    (by decide) (VMError.invalidOpcode 0xFE) (by decide) (by decide)

theorem processTxs_ok_length
    (a : Nat → StateDB → Tx → Except CoreError (Receipt × Nat × Nat × StateDB))
    (p : StateDB → Nat → Nat → Nat → StateDB) (bh : Nat) :
    ∀ (txs : List Tx) (i gp : Nat) (s : StateDB) (tot : Nat)
      (rs : List Receipt) (ls : List Nat) (tot' gp' : Nat) (s' : StateDB),
      processTxs a p bh txs i gp s tot = Except.ok (rs, ls, tot', gp', s') →
      rs.length = txs.length := by
  intro txs
  induction txs with
  | nil =>
    intro i gp s tot rs ls tot' gp' s' h
    simp only [processTxs, Except.ok.injEq, Prod.mk.injEq] at h
    obtain ⟨h1, -⟩ := h
    simp [← h1]
  | cons tx rest ih =>
    intro i gp s tot rs ls tot' gp' s' h
    simp only [processTxs] at h
    rcases ha : a gp (p s tx.hash bh i) tx with e | r
    · rw [ha] at h
      simp at h
    · rw [ha] at h
      obtain ⟨receipt, gas, gp1, s1⟩ := r
      dsimp only at h
      rcases hrec : processTxs a p bh rest (i + 1) gp1 s1 (tot + gas) with e2 | acc
      · rw [hrec] at h
        simp at h
      · rw [hrec] at h
        obtain ⟨rs2, ls2, tot2, gp2, s2⟩ := acc
        simp only [Except.ok.injEq, Prod.mk.injEq] at h
        obtain ⟨h1, -⟩ := h
        have hlen := ih (i + 1) gp1 s1 (tot + gas) rs2 ls2 tot2 gp2 s2 hrec
        simp [← h1, hlen]

theorem processTxs_error_decomp
    (a : Nat → StateDB → Tx → Except CoreError (Receipt × Nat × Nat × StateDB))
    (p : StateDB → Nat → Nat → Nat → StateDB) (bh : Nat) :
    ∀ (txs : List Tx) (i gp : Nat) (s : StateDB) (tot : Nat) (e : CoreError),
      processTxs a p bh txs i gp s tot = Except.error e →
      ∃ pre tx post rs ls tot' gp' s',
        txs = pre ++ tx :: post ∧
        processTxs a p bh pre i gp s tot = Except.ok (rs, ls, tot', gp', s') ∧
        a gp' (p s' tx.hash bh (i + pre.length)) tx = Except.error e := by
  intro txs
  induction txs with
  | nil =>
    intro i gp s tot e h
    simp [processTxs] at h
  | cons tx rest ih =>
    intro i gp s tot e h
    simp only [processTxs] at h
    rcases ha : a gp (p s tx.hash bh i) tx with e1 | r
    · rw [ha] at h
      simp only [Except.error.injEq] at h
      refine ⟨[], tx, rest, [], [], tot, gp, s, rfl, by simp [processTxs], ?_⟩
      rw [List.length_nil, Nat.add_zero, ha, h]
    · rw [ha] at h
      obtain ⟨receipt, gas, gp1, s1⟩ := r
      dsimp only at h
      rcases hrec : processTxs a p bh rest (i + 1) gp1 s1 (tot + gas) with e2 | acc
      · rw [hrec] at h
        simp only [Except.error.injEq] at h
        obtain ⟨pre1, tx1, post1, rs1, ls1, tot1, gpx, sx, hsplit, hok, happ⟩ :=
          ih (i + 1) gp1 s1 (tot + gas) e2 hrec
        refine ⟨tx :: pre1, tx1, post1, receipt :: rs1, receipt.Logs ++ ls1,
          tot1, gpx, sx, by simp [hsplit], ?_, ?_⟩
        · simp [processTxs, ha, hok]
        · have hidx : i + (tx :: pre1).length = (i + 1) + pre1.length := by
            simp [List.length_cons]
            omega
          rw [hidx, ← h]
          exact happ
      · rw [hrec] at h
        obtain ⟨rs2, ls2, tot2, gp2, s2⟩ := acc
        simp at h

/-- Claim C6: the block processor applies transactions strictly in block
order; the first transaction whose application errors aborts the whole block
with that error and no receipts or logs, and the consensus finalize step is
applied only when every transaction has succeeded, each contributing exactly
one receipt. -/
theorem process_aborts_on_first_error
    (a : Nat → StateDB → Tx → Except CoreError (Receipt × Nat × Nat × StateDB))
    (p : StateDB → Nat → Nat → Nat → StateDB)
    (dao : StateDB → StateDB) (fin : StateDB → List Receipt → StateDB)
    (config : ProcessorChainConfig) (block : Block) (s0 : StateDB) :
    (∀ e, Process a p dao fin config block s0 = Except.error e →
      ∃ pre tx post rs ls tot gp' s',
        block.transactions = pre ++ tx :: post ∧
        processTxs a p block.hash pre 0 block.gasLimit
          (if config.DAOForkSupport && config.DAOForkBlock = some block.number
            then dao s0 else s0) 0 = Except.ok (rs, ls, tot, gp', s') ∧
        a gp' (p s' tx.hash block.hash (0 + pre.length)) tx = Except.error e) ∧
    (∀ out, Process a p dao fin config block s0 = Except.ok out →
      ∃ rs ls tot gp' s',
        processTxs a p block.hash block.transactions 0 block.gasLimit
          (if config.DAOForkSupport && config.DAOForkBlock = some block.number
            then dao s0 else s0) 0 = Except.ok (rs, ls, tot, gp', s') ∧
        out = (rs, ls, tot, fin s' rs) ∧
        rs.length = block.transactions.length) := by
  constructor
  · intro e h
    simp only [Process] at h
    rcases hp : processTxs a p block.hash block.transactions 0 block.gasLimit
        (if config.DAOForkSupport && config.DAOForkBlock = some block.number
          then dao s0 else s0) 0 with e1 | acc
    · rw [hp] at h
      simp only [Except.error.injEq] at h
      subst h
      exact processTxs_error_decomp a p block.hash block.transactions 0
        block.gasLimit _ 0 e1 hp
    · rw [hp] at h
      obtain ⟨rs1, ls1, tot1, gp1, s1⟩ := acc
      simp at h
  · intro out h
    simp only [Process] at h
    rcases hp : processTxs a p block.hash block.transactions 0 block.gasLimit
        (if config.DAOForkSupport && config.DAOForkBlock = some block.number
          then dao s0 else s0) 0 with e1 | acc
    · rw [hp] at h
      simp at h
    · rw [hp] at h
      obtain ⟨rs1, ls1, tot1, gp1, s1⟩ := acc
      simp only [Except.ok.injEq] at h
      exact ⟨rs1, ls1, tot1, gp1, s1, rfl, h.symm,
        processTxs_ok_length a p block.hash block.transactions 0 block.gasLimit
          _ 0 rs1 ls1 tot1 gp1 s1 hp⟩

/-- Witness for C6: a two-transaction block whose second transaction is
rejected aborts the whole block with that error; the first (successful)
transaction is the processed prefix. -/
theorem process_aborts_on_first_error_witness :
    ∃ pre tx post rs ls tot gp' s',
      blockTwoTx.transactions = pre ++ tx :: post ∧
      processTxs applyTxEx prepareId blockTwoTx.hash pre 0 blockTwoTx.gasLimit
        (if configNoDAO.DAOForkSupport ∧ configNoDAO.DAOForkBlock = some blockTwoTx.number
          then id (mkState [] 0) else mkState [] 0) 0 = Except.ok (rs, ls, tot, gp', s') ∧
      applyTxEx gp' (prepareId s' tx.hash blockTwoTx.hash (0 + pre.length)) tx =
        Except.error CoreError.ErrNonceTooLow := by
  have h := (process_aborts_on_first_error applyTxEx prepareId id
    (fun s _ => s) configNoDAO blockTwoTx (mkState [] 0)).1
    CoreError.ErrNonceTooLow (by rfl)
  simpa using h

/-- Claim C8 (amended): along any transition trace whose pre-check,
intrinsic-gas charge and dispatch all succeed (no block-fatal error), and
whose dispatch paths never return more gas than they were given, the
post-refund `usedGas` satisfies `0 ≤ usedGas ≤ gasLimit`, the pre-refund
`requiredGas` satisfies `requiredGas ≤ gasLimit`, and the ≥-intrinsic lower
bound holds for the pre-refund `requiredGas` (the refund can push the
post-refund `usedGas` below the intrinsic gas). -/
theorem gas_accounting_conservative
    (st st1 st2 st3 st4 : StateTransition) (sender : Nat) (d : EVMDispatch)
    (hs : Bool) (cb : Nat) (ret : Option (List Nat)) (vmerr : Option VMError)
    (hgas0 : st.gas = 0)
    (hpre : st.preCheck = (st1, none))
    (hfrom : st1.from = (sender, st2))
    (hbit : ¬ 64 < bigBitLen (IntrinsicGas st2.data st2.msg.To.isNone hs))
    (huse : st2.useGas (IntrinsicGas st2.data st2.msg.To.isNone hs) = (st3, none))
    (hdisp : st3.callOrCreate d sender st2.msg.To.isNone = (ret, st4, vmerr))
    (hne : vmerr ≠ some VMError.ErrInsufficientBalance)
    (hCr : ∀ c dt g v s, (d.Create c dt g v s).leftOverGas ≤ g)
    (hCa : ∀ c t dt g v s, (d.Call c t dt g v s).leftOverGas ≤ g) :
    (st.TransitionDb d hs cb).err = none ∧
    ∃ u r : Int,
      (st.TransitionDb d hs cb).usedGas = some u ∧
      (st.TransitionDb d hs cb).requiredGas = some r ∧
      0 ≤ u ∧ u ≤ (st.msg.Gas : Int) ∧ r ≤ (st.msg.Gas : Int) ∧
      ((IntrinsicGas st.data st.msg.To.isNone hs : Nat) : Int) ≤ r := by
  -- facts about the pre-check / gas purchase
  have hpc2 : (st.preCheck).2 = none := by rw [hpre]
  obtain ⟨hpcfst, hbuy2⟩ := preCheck_success st hpc2
  have hst1 : st1 = (((st.from).2).buyGas).1 := by
    rw [← hpcfst, hpre]
  obtain ⟨hg, hig, hmsg, hprice, hdata, hlt⟩ := buyGas_success ((st.from).2) hbuy2
  rw [from_snd_gas, from_snd_msg, hgas0] at hg
  rw [from_snd_msg] at hig hmsg hlt
  rw [from_snd_gasPrice] at hprice
  rw [from_snd_data] at hdata
  have hst1gas : st1.gas = st.msg.Gas := by rw [hst1, hg]; omega
  have hst1init : st1.initialGas = st.msg.Gas := by rw [hst1, hig]
  have hst1msg : st1.msg = st.msg := by rw [hst1, hmsg]
  have hst1data : st1.data = st.data := by rw [hst1, hdata]
  -- facts about the sender-resolution step
  have hst2 : st2 = (st1.from).2 := by rw [hfrom]
  have hst2gas : st2.gas = st.msg.Gas := by rw [hst2, from_snd_gas, hst1gas]
  have hst2init : st2.initialGas = st.msg.Gas := by rw [hst2, from_snd_initialGas, hst1init]
  have hst2msg : st2.msg = st.msg := by rw [hst2, from_snd_msg, hst1msg]
  have hst2data : st2.data = st.data := by rw [hst2, from_snd_data, hst1data]
  have higEq : IntrinsicGas st2.data st2.msg.To.isNone hs =
      IntrinsicGas st.data st.msg.To.isNone hs := by
    rw [hst2data, hst2msg]
  -- facts about the intrinsic-gas charge
  have huse2 : (st2.useGas (IntrinsicGas st2.data st2.msg.To.isNone hs)).2 = none := by
    rw [huse]
  obtain ⟨huse1, hile⟩ := useGas_success st2 _ huse2
  have hst3 : st3 = (st2.useGas (IntrinsicGas st2.data st2.msg.To.isNone hs)).1 := by
    rw [huse]
  have hst3gas : st3.gas = st.msg.Gas - IntrinsicGas st2.data st2.msg.To.isNone hs := by
    rw [hst3, huse1]
    simp [hst2gas]
  have hst3init : st3.initialGas = st.msg.Gas := by
    rw [hst3, huse1]
    simp [hst2init]
  -- facts about the dispatch
  obtain ⟨h4gas, h4init, h4price, h4msg⟩ :=
    callOrCreate_facts d sender st2.msg.To.isNone st3 hCr hCa
  have hst4 : st4 = (st3.callOrCreate d sender st2.msg.To.isNone).2.1 := by rw [hdisp]
  have hst4gas : st4.gas ≤ st.msg.Gas - IntrinsicGas st2.data st2.msg.To.isNone hs := by
    rw [hst4]
    rw [hst3gas] at h4gas
    exact h4gas
  have hst4init : st4.initialGas = st.msg.Gas := by
    rw [hst4, h4init, hst3init]
  -- facts about the refund
  have hr1 : st4.gas ≤ st4.initialGas := by
    rw [hst4init]
    omega
  have hr2 : st4.initialGas < 2 ^ 64 := by rw [hst4init]; exact hlt
  obtain ⟨hr5gas, hr5init, hr5price, hr5bal⟩ := refundGas_facts st4 hr1 hr2
  -- reduce the transition along the success trace
  have herr : (st.TransitionDb d hs cb).err = none := by
    simp [StateTransition.TransitionDb, hpre, hfrom, hbit, huse, hdisp, hne]
  have hreq : (st.TransitionDb d hs cb).requiredGas = some st4.gasUsed := by
    simp [StateTransition.TransitionDb, hpre, hfrom, hbit, huse, hdisp, hne]
  have husd : (st.TransitionDb d hs cb).usedGas = some ((st4.refundGas).gasUsed) := by
    simp [StateTransition.TransitionDb, StateTransition.gasUsed, hpre, hfrom, hbit,
      huse, hdisp, hne]
  rw [hst2gas] at hile
  refine ⟨herr, (st4.refundGas).gasUsed, st4.gasUsed, husd, hreq, ?_, ?_, ?_, ?_⟩ <;>
    simp only [StateTransition.gasUsed, hr5init, hst4init] <;>
    omega

/-- Witness for C8: the intact-gas dispatch applied to the invalid-opcode call
state satisfies the amended bounds. -/
theorem gas_accounting_conservative_witness :
    (stCallInvalid.TransitionDb dispatchNoop true 99).err = none ∧
    ∃ u r : Int,
      (stCallInvalid.TransitionDb dispatchNoop true 99).usedGas = some u ∧
      (stCallInvalid.TransitionDb dispatchNoop true 99).requiredGas = some r ∧
      0 ≤ u ∧ u ≤ (stCallInvalid.msg.Gas : Int) ∧ r ≤ (stCallInvalid.msg.Gas : Int) ∧
      ((IntrinsicGas stCallInvalid.data stCallInvalid.msg.To.isNone true : Nat) : Int) ≤ r :=
  gas_accounting_conservative stCallInvalid _ _ _ _ _ dispatchNoop true 99 _ _
    rfl (by rw [Prod.ext_iff]; exact ⟨rfl, by decide⟩) rfl (by decide)
    (by rw [Prod.ext_iff]; exact ⟨rfl, by decide⟩) rfl (by decide)
    (fun c dt g v s => le_refl g) (fun c t dt g v s => le_refl g)

/-- Counterexample for C8 as stated: a call transaction that succeeds with a
large accumulated refund counter is billed `usedGas = 10500`, strictly below
the intrinsic gas of 21000, even though the call did not fail before
dispatch — the post-refund `gasUsed ≥ intrinsicGas` reading of the claim is
false on the code. -/
theorem gasUsed_below_intrinsic_after_refund :
    (stCallRefund.TransitionDb dispatchInvalidCode true 99).err = none ∧
    (stCallRefund.TransitionDb dispatchInvalidCode true 99).failed = false ∧
    (stCallRefund.TransitionDb dispatchInvalidCode true 99).usedGas = some 10500 ∧
    (10500 : Int) < (IntrinsicGas stCallRefund.data stCallRefund.msg.To.isNone true : Nat) := by
  refine ⟨by decide, by decide, by decide, by decide⟩

end EthCore
